import Mathlib

/-!
Verification of the TPM2 key-derivation functions KDFa and KDFe.

The KDF implementation itself is not part of the visible sources (only its
test file `tpm2/test/kdf_test.go` is), so the functions are modelled from the
specification; the SHA-1 / SHA-256 / HMAC primitives the spec assumes as an
external capability are embedded in full (FIPS 180-4, RFC 2104) so that the
test file's concrete vectors can be checked byte-for-byte.

Bytes are `Nat` values below 256, byte strings are `List Nat`.
-/

namespace TPMKDF

/-- Byte strings: lists of naturals, each below 256. -/
abbrev Bytes := List Nat

/-- Reduce a natural modulo 2^32 (machine-word wraparound). -/
def w32 (n : Nat) : Nat := n % 4294967296

/-- Rotate a 32-bit word right by `n` places. -/
def rotr32 (n x : Nat) : Nat := w32 ((x >>> n) ||| (x <<< (32 - n)))

/-- Rotate a 32-bit word left by `n` places. -/
def rotl32 (n x : Nat) : Nat := w32 ((x <<< n) ||| (x >>> (32 - n)))

/-- Bitwise complement on 32-bit words. -/
def wnot (x : Nat) : Nat := Nat.xor x 4294967295

/-- Big-endian 4-byte encoding of a 32-bit value. -/
def be32 (n : Nat) : Bytes := [n >>> 24 % 256, n >>> 16 % 256, n >>> 8 % 256, n % 256]

/-- Big-endian 8-byte encoding of a 64-bit value. -/
def be64 (n : Nat) : Bytes :=
  [n >>> 56 % 256, n >>> 48 % 256, n >>> 40 % 256, n >>> 32 % 256,
   n >>> 24 % 256, n >>> 16 % 256, n >>> 8 % 256, n % 256]

/-- Pack consecutive 4-byte groups into big-endian 32-bit words. -/
def bytesToWords : Bytes → List Nat
  | a :: b :: c :: d :: rest =>
      (((a % 256) <<< 24) ||| ((b % 256) <<< 16) ||| ((c % 256) <<< 8) ||| (d % 256))
        :: bytesToWords rest
  | _ => []

/-- Split a word list into 16-word (512-bit) blocks. -/
def toBlocks : List Nat → List (List Nat)
  | w0 :: w1 :: w2 :: w3 :: w4 :: w5 :: w6 :: w7 ::
    w8 :: w9 :: w10 :: w11 :: w12 :: w13 :: w14 :: w15 :: rest =>
      [w0, w1, w2, w3, w4, w5, w6, w7, w8, w9, w10, w11, w12, w13, w14, w15]
        :: toBlocks rest
  | _ => []

/-- Merkle–Damgård padding shared by SHA-1 and SHA-256: append `0x80`, zero
bytes up to 56 mod 64, then the 64-bit big-endian bit length. -/
def padMessage (msg : Bytes) : Bytes :=
  msg ++ 128 :: List.replicate ((64 - (msg.length + 9) % 64) % 64) 0 ++ be64 (8 * msg.length)

/-- SHA-256 working state: eight 32-bit words. -/
structure H8 where
  a : Nat
  b : Nat
  c : Nat
  d : Nat
  e : Nat
  f : Nat
  g : Nat
  h : Nat
deriving Repr, DecidableEq

/-- SHA-256 initial hash value (FIPS 180-4 §5.3.3), in decimal. -/
def sha256Init : H8 :=
  ⟨1779033703, 3144134277, 1013904242, 2773480762,
   1359893119, 2600822924, 528734635, 1541459225⟩

/-- SHA-256 round constants (FIPS 180-4 §4.2.2), in decimal. -/
def sha256K : List Nat :=
  [1116352408, 1899447441, 3049323471, 3921009573, 961987163, 1508970993,
   2453635748, 2870763221, 3624381080, 310598401, 607225278, 1426881987,
   1925078388, 2162078206, 2614888103, 3248222580, 3835390401, 4022224774,
   264347078, 604807628, 770255983, 1249150122, 1555081692, 1996064986,
   2554220882, 2821834349, 2952996808, 3210313671, 3336571891, 3584528711,
   113926993, 338241895, 666307205, 773529912, 1294757372, 1396182291,
   1695183700, 1986661051, 2177026350, 2456956037, 2730485921, 2820302411,
   3259730800, 3345764771, 3516065817, 3600352804, 4094571909, 275423344,
   430227734, 506948616, 659060556, 883997877, 958139571, 1322822218,
   1537002063, 1747873779, 1955562222, 2024104815, 2227730452, 2361852424,
   2428436474, 2756734187, 3204031479, 3329325298]

/-- Choose function `Ch(x,y,z)` of FIPS 180-4. -/
def ch (x y z : Nat) : Nat := Nat.xor (Nat.land x y) (Nat.land (wnot x) z)

/-- Majority function `Maj(x,y,z)` of FIPS 180-4. -/
def maj (x y z : Nat) : Nat :=
  Nat.lor (Nat.land x y) (Nat.lor (Nat.land x z) (Nat.land y z))

/-- SHA-256 small sigma 0. -/
def ssig0 (x : Nat) : Nat := Nat.xor (rotr32 7 x) (Nat.xor (rotr32 18 x) (x >>> 3))

/-- SHA-256 small sigma 1. -/
def ssig1 (x : Nat) : Nat := Nat.xor (rotr32 17 x) (Nat.xor (rotr32 19 x) (x >>> 10))

/-- SHA-256 big sigma 0. -/
def bsig0 (x : Nat) : Nat := Nat.xor (rotr32 2 x) (Nat.xor (rotr32 13 x) (rotr32 22 x))

/-- SHA-256 big sigma 1. -/
def bsig1 (x : Nat) : Nat := Nat.xor (rotr32 6 x) (Nat.xor (rotr32 11 x) (rotr32 25 x))

/-- One step of the SHA-256 message-schedule extension; `rws` is the schedule
so far, most recent word first. -/
def schedStep256 (rws : List Nat) : Nat :=
  w32 (ssig1 (rws.getD 1 0) + rws.getD 6 0 + ssig0 (rws.getD 14 0) + rws.getD 15 0)

/-- Extend a reversed schedule by `n` SHA-256 words. -/
def extendSched256 : Nat → List Nat → List Nat
  | 0, rws => rws
  | n + 1, rws => extendSched256 n (schedStep256 rws :: rws)

/-- Full 64-word SHA-256 message schedule of one 16-word block. -/
def sched256 (block : List Nat) : List Nat :=
  (extendSched256 48 block.reverse).reverse

/-- One SHA-256 compression round, consuming a (constant, schedule word) pair. -/
def round256 (s : H8) (kw : Nat × Nat) : H8 :=
  let t1 := w32 (s.h + bsig1 s.e + ch s.e s.f s.g + kw.1 + kw.2)
  let t2 := w32 (bsig0 s.a + maj s.a s.b s.c)
  ⟨w32 (t1 + t2), s.a, s.b, s.c, w32 (s.d + t1), s.e, s.f, s.g⟩

/-- SHA-256 compression function on one 16-word block. -/
def compress256 (s : H8) (block : List Nat) : H8 :=
  let t := (sha256K.zip (sched256 block)).foldl round256 s
  ⟨w32 (s.a + t.a), w32 (s.b + t.b), w32 (s.c + t.c), w32 (s.d + t.d),
   w32 (s.e + t.e), w32 (s.f + t.f), w32 (s.g + t.g), w32 (s.h + t.h)⟩

/-- Big-endian bytes of one 32-bit word. -/
def wordBytes (n : Nat) : Bytes := [n >>> 24 % 256, n >>> 16 % 256, n >>> 8 % 256, n % 256]

/-- SHA-256 digest of a byte string (FIPS 180-4). -/
def sha256 (msg : Bytes) : Bytes :=
  let s := (toBlocks (bytesToWords (padMessage msg))).foldl compress256 sha256Init
  wordBytes s.a ++ wordBytes s.b ++ wordBytes s.c ++ wordBytes s.d ++
  wordBytes s.e ++ wordBytes s.f ++ wordBytes s.g ++ wordBytes s.h

/-- SHA-1 working state: five 32-bit words. -/
structure H5 where
  a : Nat
  b : Nat
  c : Nat
  d : Nat
  e : Nat
deriving Repr, DecidableEq

/-- SHA-1 initial hash value (FIPS 180-4 §5.3.1), in decimal. -/
def sha1Init : H5 := ⟨1732584193, 4023233417, 2562383102, 271733878, 3285377520⟩

/-- SHA-1 round function, depending on the round index `i`. -/
def sha1F (i x y z : Nat) : Nat :=
  if i < 20 then Nat.xor (Nat.land x y) (Nat.land (wnot x) z)
  else if i < 40 then Nat.xor x (Nat.xor y z)
  else if i < 60 then Nat.lor (Nat.land x y) (Nat.lor (Nat.land x z) (Nat.land y z))
  else Nat.xor x (Nat.xor y z)

/-- SHA-1 round constant for round index `i`, in decimal. -/
def sha1KC (i : Nat) : Nat :=
  if i < 20 then 1518500249
  else if i < 40 then 1859775393
  else if i < 60 then 2400959708
  else 3395469782

/-- One step of the SHA-1 message-schedule extension; `rws` is the schedule so
far, most recent word first. -/
def schedStep1 (rws : List Nat) : Nat :=
  rotl32 1 (Nat.xor (rws.getD 2 0) (Nat.xor (rws.getD 7 0) (Nat.xor (rws.getD 13 0) (rws.getD 15 0))))

/-- Extend a reversed schedule by `n` SHA-1 words. -/
def extendSched1 : Nat → List Nat → List Nat
  | 0, rws => rws
  | n + 1, rws => extendSched1 n (schedStep1 rws :: rws)

/-- Full 80-word SHA-1 message schedule of one 16-word block. -/
def sched1 (block : List Nat) : List Nat :=
  (extendSched1 64 block.reverse).reverse

/-- One SHA-1 compression round, consuming a (round index, schedule word) pair. -/
def round1 (s : H5) (iw : Nat × Nat) : H5 :=
  let t := w32 (rotl32 5 s.a + sha1F iw.1 s.b s.c s.d + s.e + sha1KC iw.1 + iw.2)
  ⟨t, s.a, rotl32 30 s.b, s.c, s.d⟩

/-- SHA-1 compression function on one 16-word block. -/
def compress1 (s : H5) (block : List Nat) : H5 :=
  let t := ((List.range 80).zip (sched1 block)).foldl round1 s
  ⟨w32 (s.a + t.a), w32 (s.b + t.b), w32 (s.c + t.c), w32 (s.d + t.d), w32 (s.e + t.e)⟩

/-- SHA-1 digest of a byte string (FIPS 180-4). -/
def sha1 (msg : Bytes) : Bytes :=
  let s := (toBlocks (bytesToWords (padMessage msg))).foldl compress1 sha1Init
  wordBytes s.a ++ wordBytes s.b ++ wordBytes s.c ++ wordBytes s.d ++ wordBytes s.e

/-- HMAC (RFC 2104) over a hash with 64-byte block size: keys longer than one
block are hashed, the key is zero-padded to 64 bytes, and the digest is
`H((key xor opad) || H((key xor ipad) || msg))`. -/
def hmac (hash : Bytes → Bytes) (key msg : Bytes) : Bytes :=
  let k0 := if 64 < key.length then hash key else key
  let kp := k0 ++ List.replicate (64 - k0.length) 0
  hash ((kp.map fun b => Nat.xor (b % 256) 0x5c) ++
    hash ((kp.map fun b => Nat.xor (b % 256) 0x36) ++ msg))

/-- Modelled from the spec: the TPM algorithm identifier, an enumerated tag.
The visible sources do not contain the `Algorithm` type, only its uses in the
test file; the spec requires the digest table to cover at least SHA-1 and
SHA-256, with an unrecognized tag a hard error, never a default. The tags
beyond the two hashes stand for identifiers that are not hash algorithms. -/
inductive Algorithm where
  | SHA1
  | SHA256
  | Null
  | RSA
  | AES
deriving Repr, DecidableEq

/-- Modelled from the spec: the algorithm→digest-size lookup (SHA-1 → 20
bytes, SHA-256 → 32 bytes); zero marks an unrecognized tag. -/
def digestSize : Algorithm → Nat
  | .SHA1 => 20
  | .SHA256 => 32
  | _ => 0

/-- Modelled from the spec: the hash capability keyed by the algorithm
identifier; `none` for a tag that is not a recognized hash algorithm. -/
def hashFunction : Algorithm → Option (Bytes → Bytes)
  | .SHA1 => some sha1
  | .SHA256 => some sha256
  | _ => none

/-- Modelled from the spec: the KDF error taxonomy — `UnsupportedAlgorithm`
for an unrecognized hash identifier, `InvalidLength` for `bits ≤ 0`. -/
inductive KDFError where
  | UnsupportedAlgorithm
  | InvalidLength
deriving Repr, DecidableEq

/-- Modelled from the spec: the shared block-generation loop of KDFa/KDFe —
starting from `counter`, repeatedly increment the counter, compute the block
for the new counter value and append it, stopping once at least the needed
number of bytes has accumulated. `fuel` bounds the recursion; any
`fuel ≥ needed` is enough when every block is nonempty. -/
def kdfLoop (block : Nat → Bytes) (counter needed : Nat) : Nat → Bytes
  | 0 => []
  | fuel + 1 =>
    if needed = 0 then []
    else
      let b := block (counter + 1)
      b ++ kdfLoop block (counter + 1) (needed - b.length) fuel

/-- Modelled from the spec: the high-bit mask of the truncation helper — when
`bits` is not a multiple of 8, clear the top `8 - bits % 8` bits of byte 0 by
masking with `0xff >>> (8 - bits % 8)`. -/
def maskHigh (bits : Nat) (out : Bytes) : Bytes :=
  if bits % 8 = 0 then out
  else
    match out with
    | [] => []
    | b0 :: rest => Nat.land (b0 % 256) (0xff >>> (8 - bits % 8)) :: rest

/-- Modelled from the spec: the truncation/masking helper shared by KDFa and
KDFe — keep the first `⌈bits/8⌉` bytes, then mask byte 0's unused high bits. -/
def truncateToBits (bits : Nat) (buf : Bytes) : Bytes :=
  maskHigh bits (buf.take ((bits + 7) / 8))

/-- Modelled from the spec: the per-block KDFa message,
`counter_be32 || label || 0x00 || contextU || contextV || bits_be32`. -/
def kdfaMessage (label u v : Bytes) (bits counter : Nat) : Bytes :=
  be32 counter ++ label ++ [0] ++ u ++ v ++ be32 bits

/-- Modelled from the spec: `KDFa(hashAlg, key, label, contextU, contextV,
bits)` — counter-mode HMAC key derivation. The label is taken as its raw
bytes (a trailing `0x00` is appended by the message builder); an absent
context buffer is treated as empty. Fails with `UnsupportedAlgorithm` when
`hashAlg` is not a recognized hash, with `InvalidLength` when `bits ≤ 0`. -/
def KDFa (hashAlg : Algorithm) (key label : Bytes) (contextU contextV : Option Bytes)
    (bits : Int) : Except KDFError Bytes :=
  match hashFunction hashAlg with
  | none => .error .UnsupportedAlgorithm
  | some hash =>
    if bits ≤ 0 then .error .InvalidLength
    else
      let b := bits.toNat
      let needed := (b + 7) / 8
      let blockF := fun c => hmac hash key (kdfaMessage label (contextU.getD []) (contextV.getD []) b c)
      .ok (truncateToBits b (kdfLoop blockF 0 needed needed))

/-- Modelled from the spec: the per-block KDFe message,
`counter_be32 || z || label || 0x00 || partyUInfo || partyVInfo` — the bit
length is not part of the hashed message. -/
def kdfeMessage (z label u v : Bytes) (counter : Nat) : Bytes :=
  be32 counter ++ z ++ label ++ [0] ++ u ++ v

/-- Modelled from the spec: `KDFe(hashAlg, z, label, partyUInfo, partyVInfo,
bits)` — concatenation (unkeyed hash) key derivation, with the same loop,
truncation, masking and error conditions as KDFa. -/
def KDFe (hashAlg : Algorithm) (z label : Bytes) (partyUInfo partyVInfo : Option Bytes)
    (bits : Int) : Except KDFError Bytes :=
  match hashFunction hashAlg with
  | none => .error .UnsupportedAlgorithm
  | some hash =>
    if bits ≤ 0 then .error .InvalidLength
    else
      let b := bits.toNat
      let needed := (b + 7) / 8
      let blockF := fun c => hash (kdfeMessage z label (partyUInfo.getD []) (partyVInfo.getD []) c)
      .ok (truncateToBits b (kdfLoop blockF 0 needed needed))

/-- Label bytes of the string "IDENTITY". -/
def labelIDENTITY : Bytes := [0x49, 0x44, 0x45, 0x4e, 0x54, 0x49, 0x54, 0x59]

/-- Label bytes of the string "DUPLICATE". -/
def labelDUPLICATE : Bytes := [0x44, 0x55, 0x50, 0x4c, 0x49, 0x43, 0x41, 0x54, 0x45]

/-- Label bytes of the string "KDFSELFTESTLABEL". -/
def labelKDFSELFTEST : Bytes :=
  [0x4b, 0x44, 0x46, 0x53, 0x45, 0x4c, 0x46, 0x54, 0x45, 0x53, 0x54, 0x4c, 0x41, 0x42, 0x45, 0x4c]

/-- Expected KDFa output of the first `TestKDFa` case (SHA-256, 128 bits). -/
def expKDFaSha256x128 : Bytes :=
  [0xd2, 0xd7, 0x2c, 0xc7, 0xa8, 0xa5, 0xeb, 0x09, 0xe8, 0xc7, 0x90, 0x12, 0xe2, 0xda, 0x9f, 0x22]

/-- Expected KDFa output of the third `TestKDFa` case (SHA-1, 256 bits). -/
def expKDFaSha1x256 : Bytes :=
  [0x83, 0xf3, 0x54, 0xaf, 0xcf, 0x92, 0x3d, 0xe2, 0x11, 0x2e, 0x08, 0x91, 0x43, 0x4c, 0xd0, 0xbd,
   0xc8, 0xac, 0xbf, 0x01, 0xb8, 0x11, 0xc0, 0xe8, 0xcd, 0x06, 0x2d, 0xed, 0x39, 0xe3, 0x1f, 0x7f]

/-- Key of the fourth `TestKDFa` case (521 bits, Page 44 example). -/
def key521 : Bytes :=
  [0x27, 0x1f, 0xa0, 0x8b, 0xbd, 0xc5, 0x06, 0x0e, 0xc3, 0xdf, 0xa9, 0x28, 0xff, 0x9b, 0x73, 0x12,
   0x3a, 0x12, 0xda, 0x0c]

/-- contextU of the fourth `TestKDFa` case. -/
def ctxU521 : Bytes := [0xce, 0x24, 0x4f, 0x39, 0x5d, 0xca, 0x73, 0x91]

/-- contextV of the fourth `TestKDFa` case. -/
def ctxV521 : Bytes := [0xda, 0x50, 0x40, 0x31, 0xdd, 0xf1, 0x2e, 0x83]

/-- Expected KDFa output of the fourth `TestKDFa` case (SHA-1, 521 bits). -/
def expKDFa521 : Bytes :=
  [0x01, 0x71, 0x4e, 0x86, 0x50, 0x72, 0xc1, 0xe4, 0xc4, 0x0b, 0x36, 0x70, 0x28, 0x11, 0x12, 0x63,
   0x2f, 0xc9, 0xec, 0xba, 0x25, 0xe6, 0x6a, 0xf6, 0x8d, 0x18, 0xa2, 0xb6, 0x2d, 0xe9, 0xcb, 0xb4,
   0x45, 0x21, 0xda, 0x2b, 0xc9, 0xa4, 0x96, 0x86, 0x2e, 0xb3, 0xf3, 0x06, 0x94, 0x9f, 0x9e, 0xfe,
   0x8a, 0x9e, 0x1c, 0xcb, 0xce, 0x3b, 0x4d, 0x66, 0x8f, 0xfd, 0x75, 0xc9, 0x39, 0x4b, 0xa5, 0x94,
   0x58, 0xfe]

/-- Shared secret z of the `NIST-P224-SHA256` case of `TestKDFe`. -/
def zP224 : Bytes :=
  [0x6e, 0xd1, 0x5c, 0x60, 0xfd, 0x43, 0x3f, 0x5d, 0xdb, 0x28, 0x0d, 0x7b, 0xe4, 0x3f,
   0x8a, 0xc5, 0xa4, 0x52, 0x4c, 0x13, 0xb9, 0x2f, 0xf2, 0x93, 0x61, 0x94, 0x29, 0xef]

/-- partyUInfo of the `NIST-P224-SHA256` case of `TestKDFe`. -/
def uP224 : Bytes :=
  [0xaf, 0x06, 0xe1, 0xa4, 0x22, 0xed, 0xbe, 0x6f, 0x41, 0xe1, 0xf8, 0xb3, 0xce, 0x0a,
   0xf2, 0x1f, 0xc8, 0xb1, 0x01, 0x3c, 0x1f, 0xc8, 0xd5, 0x50, 0xcc, 0xae, 0xe6, 0x6d]

/-- partyVInfo of the `NIST-P224-SHA256` case of `TestKDFe`. -/
def vP224 : Bytes :=
  [0xa0, 0x2e, 0x47, 0x5e, 0xc7, 0x53, 0x44, 0x4d, 0x1b, 0xc1, 0xad, 0x10, 0xbc, 0xa3,
   0xa7, 0xda, 0x72, 0xee, 0x65, 0x29, 0x7b, 0x04, 0xd5, 0xf4, 0x2a, 0xa8, 0x81, 0x2c]

/-- Expected KDFe output of the `NIST-P224-SHA256` case of `TestKDFe`. -/
def expP224 : Bytes :=
  [0x33, 0xa1, 0x99, 0xf3, 0x24, 0xbe, 0x56, 0x22, 0x49, 0x4e, 0x7c, 0x79, 0xcb, 0x0c, 0x8c, 0x84,
   0x22, 0x73, 0xd7, 0x68, 0x8d, 0x3a, 0x64, 0xda, 0x97, 0xfb, 0x48, 0xea, 0xea, 0x44, 0xf0, 0xa3]

/-- Shared secret z of the `SHORTER-THAN-HASH` case of `TestKDFe` (100 bits). -/
def z100 : Bytes :=
  [0x9e, 0xc0, 0x69, 0x1d, 0x3c, 0x5d, 0x35, 0xfb, 0xb2, 0xdc, 0xf0, 0x82, 0xb0, 0xbb, 0x4d, 0x1d,
   0xf0, 0x7e, 0xe0, 0xc5, 0xbf, 0x27, 0x25, 0x1f, 0xff, 0xa9, 0x73, 0xee, 0x33, 0x9e, 0x5e, 0x62]

/-- partyUInfo of the `SHORTER-THAN-HASH` case of `TestKDFe`. -/
def u100 : Bytes :=
  [0x68, 0xd6, 0x2d, 0x34, 0x49, 0xe0, 0xdb, 0x8c, 0x1a, 0xf5, 0x7a, 0xdb, 0xa1, 0x53, 0x43, 0xbc,
   0x34, 0xf2, 0xa6, 0xe7, 0x6a, 0x97, 0x50, 0xf4, 0x76, 0xe6, 0x18, 0x62, 0xdb, 0x8f, 0x0b, 0xec]

/-- partyVInfo of the `SHORTER-THAN-HASH` case of `TestKDFe`. -/
def v100 : Bytes :=
  [0xaa, 0xb7, 0xca, 0xb3, 0x61, 0xd8, 0xf3, 0x1d, 0x0f, 0x6a, 0x98, 0xcc, 0x3c, 0x11, 0xbb, 0xe9,
   0x98, 0x3b, 0xf9, 0x1f, 0xc4, 0xc5, 0x3e, 0x90, 0xd5, 0xcb, 0x10, 0xeb, 0x74, 0xfd, 0x5c, 0x3a]

/-- Shared secret z of the `LONGER-THAN-HASH` case of `TestKDFe` (1600 bits). -/
def z1600 : Bytes :=
  [0x1e, 0xb2, 0x0a, 0x75, 0x56, 0xd7, 0xb7, 0xc9, 0x1d, 0x7d, 0x69, 0x74, 0xc9, 0x4a, 0x9b, 0xfb,
   0xfa, 0xf1, 0x25, 0x63, 0xcb, 0xde, 0x93, 0xb4, 0x05, 0x6b, 0xb9, 0xb6, 0x2b, 0x2b, 0x23, 0x82]

/-- partyUInfo of the `LONGER-THAN-HASH` case of `TestKDFe`. -/
def u1600 : Bytes :=
  [0x57, 0xea, 0xfe, 0xe9, 0xcb, 0x12, 0xae, 0xb7, 0x43, 0x7d, 0xbc, 0xe8, 0x40, 0xaa, 0x9d, 0xbd,
   0x59, 0x6f, 0x3b, 0x10, 0x32, 0x0a, 0xb0, 0x65, 0x75, 0xb2, 0x37, 0xf3, 0x38, 0xfa, 0xe6, 0xc2]

/-- partyVInfo of the `LONGER-THAN-HASH` case of `TestKDFe`. -/
def v1600 : Bytes :=
  [0x30, 0x99, 0xaa, 0x56, 0xbc, 0x2b, 0xe9, 0xbc, 0xca, 0x32, 0x4f, 0x03, 0x10, 0x3a, 0x56, 0xac,
   0x03, 0x31, 0x4d, 0x10, 0x5f, 0x4d, 0xbc, 0x90, 0x32, 0xfe, 0x87, 0x9f, 0xe9, 0xc0, 0xdf, 0x68]

section Lemmas

/-- SHA-256 digests are always 32 bytes long. -/
theorem sha256_length (msg : Bytes) : (sha256 msg).length = 32 := by
  simp [sha256, wordBytes]

/-- SHA-1 digests are always 20 bytes long. -/
theorem sha1_length (msg : Bytes) : (sha1 msg).length = 20 := by
  simp [sha1, wordBytes]

/-- A recognized algorithm's hash returns digests of its tabulated size. -/
theorem hash_length {alg : Algorithm} {hash : Bytes → Bytes}
    (hrec : hashFunction alg = some hash) (m : Bytes) :
    (hash m).length = digestSize alg := by
  cases alg <;> simp [hashFunction] at hrec <;> subst hrec <;>
    simp [digestSize, sha1_length, sha256_length]

/-- A recognized algorithm's digest size is positive. -/
theorem digestSize_pos {alg : Algorithm} {hash : Bytes → Bytes}
    (hrec : hashFunction alg = some hash) : 0 < digestSize alg := by
  cases alg <;> simp_all [hashFunction, digestSize]

/-- HMAC over a recognized hash returns digests of the hash's size. -/
theorem hmac_length {alg : Algorithm} {hash : Bytes → Bytes}
    (hrec : hashFunction alg = some hash) (key msg : Bytes) :
    (hmac hash key msg).length = digestSize alg := by
  unfold hmac
  exact hash_length hrec _

/-- The fueled generation loop, run with enough fuel on constant-size nonempty
blocks, produces exactly the concatenation of blocks for counters
`counter+1, counter+2, …`, just enough of them to cover `needed` bytes. -/
theorem kdfLoop_eq_flatMap {block : Nat → Bytes} {d : Nat} (hd : 0 < d)
    (hblk : ∀ c, (block c).length = d) :
    ∀ fuel needed counter, needed ≤ fuel →
      kdfLoop block counter needed fuel =
        (List.range ((needed + d - 1) / d)).flatMap fun i => block (counter + 1 + i) := by
  intro fuel
  induction fuel with
  | zero =>
    intro needed counter h
    have h0 : needed = 0 := Nat.le_zero.mp h
    subst h0
    rw [Nat.div_eq_of_lt (by omega)]
    simp [kdfLoop]
  | succ n ih =>
    intro needed counter h
    by_cases h0 : needed = 0
    · subst h0
      rw [Nat.div_eq_of_lt (by omega)]
      simp [kdfLoop]
    · have harith : (needed + d - 1) / d = (needed - d + d - 1) / d + 1 := by
        rcases Nat.lt_or_ge needed d with hlt | hge
        · have h1 : needed + d - 1 = (needed - 1) + d := by omega
          have h2 : needed - d = 0 := by omega
          rw [h1, Nat.add_div_right _ hd, h2, Nat.div_eq_of_lt (by omega),
            Nat.div_eq_of_lt (by omega)]
        · have h1 : needed - d + d - 1 = needed - 1 := by omega
          have h2 : needed + d - 1 = (needed - 1) + d := by omega
          rw [h1, h2, Nat.add_div_right _ hd]
      have hrec : kdfLoop block counter needed (n + 1) =
          block (counter + 1) ++ kdfLoop block (counter + 1) (needed - (block (counter + 1)).length) n := by
        simp [kdfLoop, h0]
      rw [hrec, hblk, ih (needed - d) (counter + 1) (by omega), harith,
        List.range_succ_eq_map]
      have hshift : ∀ i : Nat, counter + 1 + 1 + i = counter + 1 + (i + 1) := by omega
      simp [List.flatMap_cons, List.flatMap_map, hshift, Function.comp]

/-- Concatenating `k` constant-size blocks yields `k * d` bytes. -/
theorem flatMap_blocks_length {g : Nat → Bytes} {d : Nat}
    (hblk : ∀ i, (g i).length = d) (k : Nat) :
    ((List.range k).flatMap g).length = k * d := by
  induction k with
  | zero => simp
  | succ m ih =>
    rw [List.range_succ]
    simp only [List.flatMap_append, List.length_append, ih, List.flatMap_cons,
      List.flatMap_nil, List.append_nil, hblk]
    ring

/-- Just enough blocks cover the needed byte count: `needed ≤ ⌈needed/d⌉ * d`. -/
theorem needed_le_blocks {needed d : Nat} (hd : 0 < d) :
    needed ≤ (needed + d - 1) / d * d := by
  rcases Nat.eq_zero_or_pos needed with h0 | hpos
  · simp [h0]
  · have hdm := Nat.div_add_mod (needed + d - 1) d
    have hlt : (needed + d - 1) % d < d := Nat.mod_lt _ hd
    have := Nat.mul_comm ((needed + d - 1) / d) d
    omega

/-- The high-bit mask never changes the buffer's length. -/
theorem maskHigh_length (bits : Nat) (out : Bytes) :
    (maskHigh bits out).length = out.length := by
  unfold maskHigh
  split
  · rfl
  · cases out <;> simp

/-- Closed form of KDFa on a recognized algorithm and positive bit count: the
first `⌈bits/8⌉` bytes of the concatenation of HMAC blocks for counters
1, 2, …, high-bit masked. -/
theorem KDFa_eq_closed {alg : Algorithm} {hash : Bytes → Bytes}
    (hrec : hashFunction alg = some hash) (key label : Bytes)
    (u v : Option Bytes) (bits : Int) (hb : 1 ≤ bits) :
    KDFa alg key label u v bits =
      .ok (maskHigh bits.toNat
        (((List.range (((bits.toNat + 7) / 8 + digestSize alg - 1) / digestSize alg)).flatMap
            fun i => hmac hash key (kdfaMessage label (u.getD []) (v.getD []) bits.toNat (i + 1))).take
          ((bits.toNat + 7) / 8))) := by
  have hneg : ¬ bits ≤ 0 := by omega
  simp only [KDFa, hrec, if_neg hneg]
  rw [truncateToBits,
    kdfLoop_eq_flatMap (digestSize_pos hrec) (fun c => hmac_length hrec key _) _ _ 0 le_rfl]
  have hshift : ∀ i : Nat, 0 + 1 + i = i + 1 := by omega
  simp only [hshift]

/-- Closed form of KDFe on a recognized algorithm and positive bit count: the
first `⌈bits/8⌉` bytes of the concatenation of unkeyed hash blocks for
counters 1, 2, …, high-bit masked. -/
theorem KDFe_eq_closed {alg : Algorithm} {hash : Bytes → Bytes}
    (hrec : hashFunction alg = some hash) (z label : Bytes)
    (u v : Option Bytes) (bits : Int) (hb : 1 ≤ bits) :
    KDFe alg z label u v bits =
      .ok (maskHigh bits.toNat
        (((List.range (((bits.toNat + 7) / 8 + digestSize alg - 1) / digestSize alg)).flatMap
            fun i => hash (kdfeMessage z label (u.getD []) (v.getD []) (i + 1))).take
          ((bits.toNat + 7) / 8))) := by
  have hneg : ¬ bits ≤ 0 := by omega
  simp only [KDFe, hrec, if_neg hneg]
  rw [truncateToBits,
    kdfLoop_eq_flatMap (digestSize_pos hrec) (fun c => hash_length hrec _) _ _ 0 le_rfl]
  have hshift : ∀ i : Nat, 0 + 1 + i = i + 1 := by omega
  simp only [hshift]

/-- A successful KDFa output has exactly `⌈bits/8⌉` bytes. -/
theorem KDFa_ok_length {alg : Algorithm} {hash : Bytes → Bytes}
    (hrec : hashFunction alg = some hash) (key label : Bytes)
    (u v : Option Bytes) (bits : Int) (hb : 1 ≤ bits) (out : Bytes)
    (hout : KDFa alg key label u v bits = .ok out) :
    out.length = (bits.toNat + 7) / 8 := by
  rw [KDFa_eq_closed hrec key label u v bits hb] at hout
  cases hout
  rw [maskHigh_length, List.length_take,
    flatMap_blocks_length (fun i => hmac_length hrec key _)]
  exact Nat.min_eq_left (needed_le_blocks (digestSize_pos hrec))

/-- A successful KDFe output has exactly `⌈bits/8⌉` bytes. -/
theorem KDFe_ok_length {alg : Algorithm} {hash : Bytes → Bytes}
    (hrec : hashFunction alg = some hash) (z label : Bytes)
    (u v : Option Bytes) (bits : Int) (hb : 1 ≤ bits) (out : Bytes)
    (hout : KDFe alg z label u v bits = .ok out) :
    out.length = (bits.toNat + 7) / 8 := by
  rw [KDFe_eq_closed hrec z label u v bits hb] at hout
  cases hout
  rw [maskHigh_length, List.length_take,
    flatMap_blocks_length (fun i => hash_length hrec _)]
  exact Nat.min_eq_left (needed_le_blocks (digestSize_pos hrec))

/-- When `bits` is a multiple of 8, the high-bit mask is the identity. -/
theorem maskHigh_of_mod_eq_zero {bits : Nat} (h : bits % 8 = 0) (l : Bytes) :
    maskHigh bits l = l := by
  unfold maskHigh
  exact if_pos h

/-- After masking at a non-byte-aligned `bits`, byte 0 is below `2 ^ (bits % 8)`:
its top `8 - bits % 8` bits are zero. -/
theorem maskHigh_headD_lt {bits : Nat} (hm : bits % 8 ≠ 0) (l : Bytes) :
    (maskHigh bits l).headD 0 < 2 ^ (bits % 8) := by
  have h8 : bits % 8 < 8 := Nat.mod_lt _ (by omega)
  unfold maskHigh
  rw [if_neg hm]
  cases l with
  | nil => simp [Nat.pos_pow_of_pos]
  | cons b0 rest =>
    simp only [List.headD_cons]
    generalize bits % 8 = r at hm h8 ⊢
    have h1 : 1 ≤ r := by omega
    interval_cases r <;> exact lt_of_le_of_lt Nat.and_le_right (by decide)

/-- KDFa reports `UnsupportedAlgorithm` exactly on unrecognized identifiers. -/
theorem KDFa_unsupported_iff (alg : Algorithm) (key label : Bytes)
    (u v : Option Bytes) (bits : Int) :
    KDFa alg key label u v bits = .error .UnsupportedAlgorithm ↔ hashFunction alg = none := by
  cases halg : hashFunction alg with
  | none => simp [KDFa, halg]
  | some h =>
    simp only [KDFa, halg]
    by_cases hb : bits ≤ 0 <;> simp [hb]

/-- KDFe reports `UnsupportedAlgorithm` exactly on unrecognized identifiers. -/
theorem KDFe_unsupported_iff (alg : Algorithm) (z label : Bytes)
    (u v : Option Bytes) (bits : Int) :
    KDFe alg z label u v bits = .error .UnsupportedAlgorithm ↔ hashFunction alg = none := by
  cases halg : hashFunction alg with
  | none => simp [KDFe, halg]
  | some h =>
    simp only [KDFe, halg]
    by_cases hb : bits ≤ 0 <;> simp [hb]

/-- On a recognized algorithm, KDFa reports `InvalidLength` exactly when
`bits ≤ 0`. -/
theorem KDFa_invalid_iff {alg : Algorithm} {hash : Bytes → Bytes}
    (hrec : hashFunction alg = some hash) (key label : Bytes)
    (u v : Option Bytes) (bits : Int) :
    KDFa alg key label u v bits = .error .InvalidLength ↔ bits ≤ 0 := by
  simp only [KDFa, hrec]
  by_cases hb : bits ≤ 0 <;> simp [hb]

/-- On a recognized algorithm, KDFe reports `InvalidLength` exactly when
`bits ≤ 0`. -/
theorem KDFe_invalid_iff {alg : Algorithm} {hash : Bytes → Bytes}
    (hrec : hashFunction alg = some hash) (z label : Bytes)
    (u v : Option Bytes) (bits : Int) :
    KDFe alg z label u v bits = .error .InvalidLength ↔ bits ≤ 0 := by
  simp only [KDFe, hrec]
  by_cases hb : bits ≤ 0 <;> simp [hb]

/-- A shorter `take` of a longer run of the same constant-size blocks agrees
with the shorter run's `take`. -/
theorem take_flatMap_range_eq {g : Nat → Bytes} {d : Nat}
    (hblk : ∀ i, (g i).length = d) {k1 k2 n : Nat} (hk : k1 ≤ k2) (hn : n ≤ k1 * d) :
    ((List.range k1).flatMap g).take n = ((List.range k2).flatMap g).take n := by
  have hdecomp : k2 = k1 + (k2 - k1) := by omega
  rw [hdecomp, List.range_add, List.flatMap_append,
    List.take_append_of_le_length (by rw [flatMap_blocks_length hblk]; exact hn)]

end Lemmas

section Claims

set_option maxRecDepth 1000000
set_option maxHeartbeats 2000000

/-- Claim C1: for every recognized hash algorithm, key, label, contextU,
contextV and bits ≥ 1, KDFa returns the concatenation of the HMAC blocks
`HMAC(key, counter_be32 || label || 0x00 || contextU || contextV || bits_be32)`
for counters 1, 2, 3, …, just enough blocks to cover `⌈bits/8⌉` bytes,
truncated to exactly the first `⌈bits/8⌉` bytes (trailing bytes of the final
block discarded) and high-bit masked; the first block's counter is 1. -/
theorem kdfa_counter_mode_blocks (alg : Algorithm) (hash : Bytes → Bytes)
    (hrec : hashFunction alg = some hash) (key label : Bytes)
    (u v : Option Bytes) (bits : Int) (hb : 1 ≤ bits) :
    KDFa alg key label u v bits =
      .ok (maskHigh bits.toNat
        (((List.range (((bits.toNat + 7) / 8 + digestSize alg - 1) / digestSize alg)).flatMap
            fun i => hmac hash key
              (be32 (i + 1) ++ label ++ [0] ++ u.getD [] ++ v.getD [] ++ be32 bits.toNat)).take
          ((bits.toNat + 7) / 8))) :=
  KDFa_eq_closed hrec key label u v bits hb

/-- Witness for C1 at a concrete input: KDFa(SHA-256, key = [], label = [],
no contexts, bits = 8) is one HMAC block truncated to one byte. -/
theorem kdfa_counter_mode_blocks_witness :
    KDFa .SHA256 [] [] none none 8 =
      .ok (maskHigh 8 (((List.range 1).flatMap
        fun i => hmac sha256 [] (be32 (i + 1) ++ [] ++ [0] ++ [] ++ [] ++ be32 8)).take 1)) :=
  kdfa_counter_mode_blocks .SHA256 sha256 rfl [] [] none none 8 (by norm_num)

/-- Claim C2: KDFe uses the same block loop, truncation and masking as KDFa
but each block is the unkeyed `Hash(counter_be32 || z || label || 0x00 ||
partyUInfo || partyVInfo)` — the bit length is not part of the hashed
message — and the NIST-P224-SHA256 test vector is reproduced exactly. -/
theorem kdfe_hash_blocks_and_p224 :
    (∀ (alg : Algorithm) (hash : Bytes → Bytes) (z label : Bytes)
       (u v : Option Bytes) (bits : Int),
       hashFunction alg = some hash → 1 ≤ bits →
       KDFe alg z label u v bits =
         .ok (maskHigh bits.toNat
           (((List.range (((bits.toNat + 7) / 8 + digestSize alg - 1) / digestSize alg)).flatMap
               fun i => hash (be32 (i + 1) ++ z ++ label ++ [0] ++ u.getD [] ++ v.getD [])).take
             ((bits.toNat + 7) / 8)))) ∧
    KDFe .SHA256 zP224 labelDUPLICATE (some uP224) (some vP224) 256 = .ok expP224 :=
  ⟨fun alg hash z label u v bits hrec hb => KDFe_eq_closed hrec z label u v bits hb, by rfl⟩

/-- Witness for C2 at a concrete input: KDFe(SHA-256, z = [], label = [],
no party info, bits = 8) is one hash block truncated to one byte. -/
theorem kdfe_hash_blocks_and_p224_witness :
    KDFe .SHA256 [] [] none none 8 =
      .ok (maskHigh 8 (((List.range 1).flatMap
        fun i => sha256 (be32 (i + 1) ++ [] ++ [] ++ [0] ++ [] ++ [])).take 1)) :=
  kdfe_hash_blocks_and_p224.1 .SHA256 sha256 [] [] none none 8 rfl (by norm_num)

/-- Claim C3: KDFa reproduces the two byte-exact scenarios of the spec — the
SHA-256/128-bit "yolo" vector and the SHA-1/256-bit "ca" vector of
`TestKDFa`. -/
theorem kdfa_concrete_vectors :
    KDFa .SHA256 [0x79, 0x6f, 0x6c, 0x6f, 0] labelIDENTITY
        (some [0x6b, 0x65, 0x6b, 0]) (some [0x79, 0x6f, 0x79, 0x6f, 0]) 128 =
      .ok expKDFaSha256x128 ∧
    KDFa .SHA1 [0x63, 0x61, 0] labelIDENTITY (some [0x61, 0x62, 0x63, 0]) none 256 =
      .ok expKDFaSha1x256 :=
  ⟨by rfl, by rfl⟩

/-- Claim C4: on a recognized algorithm and bits ≥ 1, KDFa and KDFe output
exactly `⌈bits/8⌉` bytes; in particular KDFe with bits = 100 returns 13 bytes
and KDFe with bits = 1600 returns 200 bytes. -/
theorem kdf_output_length :
    (∀ (alg : Algorithm) (hash : Bytes → Bytes) (key label : Bytes)
       (u v : Option Bytes) (bits : Int) (out : Bytes),
       hashFunction alg = some hash → 1 ≤ bits →
       KDFa alg key label u v bits = .ok out → out.length = (bits.toNat + 7) / 8) ∧
    (∀ (alg : Algorithm) (hash : Bytes → Bytes) (z label : Bytes)
       (u v : Option Bytes) (bits : Int) (out : Bytes),
       hashFunction alg = some hash → 1 ≤ bits →
       KDFe alg z label u v bits = .ok out → out.length = (bits.toNat + 7) / 8) ∧
    (KDFe .SHA256 z100 labelDUPLICATE (some u100) (some v100) 100).map List.length = .ok 13 ∧
    (KDFe .SHA256 z1600 labelDUPLICATE (some u1600) (some v1600) 1600).map List.length = .ok 200 :=
  ⟨fun alg hash key label u v bits out hrec hb hout =>
      KDFa_ok_length hrec key label u v bits hb out hout,
   fun alg hash z label u v bits out hrec hb hout =>
      KDFe_ok_length hrec z label u v bits hb out hout,
   by rfl, by rfl⟩

/-- Witness for C4 at a concrete input: the 128-bit SHA-256 KDFa test vector
has exactly 16 bytes. -/
theorem kdf_output_length_witness :
    expKDFaSha256x128.length = 16 :=
  kdf_output_length.1 .SHA256 sha256 [0x79, 0x6f, 0x6c, 0x6f, 0] labelIDENTITY
    (some [0x6b, 0x65, 0x6b, 0]) (some [0x79, 0x6f, 0x79, 0x6f, 0]) 128 expKDFaSha256x128
    rfl (by norm_num) (by rfl)

/-- Claim C5: whenever `bits` is not a multiple of 8, byte 0 of a successful
KDFa or KDFe output is below `2 ^ (bits % 8)`: its top `8 - bits % 8` bits
are zero. -/
theorem kdf_high_bit_mask :
    (∀ (alg : Algorithm) (hash : Bytes → Bytes) (key label : Bytes)
       (u v : Option Bytes) (bits : Int) (out : Bytes),
       hashFunction alg = some hash → 1 ≤ bits → bits.toNat % 8 ≠ 0 →
       KDFa alg key label u v bits = .ok out →
       out.headD 0 < 2 ^ (bits.toNat % 8)) ∧
    (∀ (alg : Algorithm) (hash : Bytes → Bytes) (z label : Bytes)
       (u v : Option Bytes) (bits : Int) (out : Bytes),
       hashFunction alg = some hash → 1 ≤ bits → bits.toNat % 8 ≠ 0 →
       KDFe alg z label u v bits = .ok out →
       out.headD 0 < 2 ^ (bits.toNat % 8)) := by
  constructor
  · intro alg hash key label u v bits out hrec hb hm hout
    rw [KDFa_eq_closed hrec key label u v bits hb] at hout
    have h := Except.ok.inj hout
    subst h
    exact maskHigh_headD_lt hm _
  · intro alg hash z label u v bits out hrec hb hm hout
    rw [KDFe_eq_closed hrec z label u v bits hb] at hout
    have h := Except.ok.inj hout
    subst h
    exact maskHigh_headD_lt hm _

/-- Witness for C5 at a concrete input: the 521-bit Page-44 KDFa vector's
byte 0 is below 2 — its top 7 bits are clear. -/
theorem kdf_high_bit_mask_witness :
    expKDFa521.headD 0 < 2 :=
  kdf_high_bit_mask.1 .SHA1 sha1 key521 labelKDFSELFTEST (some ctxU521) (some ctxV521) 521
    expKDFa521 rfl (by norm_num) (by decide) (by rfl)

/-- Claim C6: KDFa and KDFe fail with `UnsupportedAlgorithm` exactly when the
identifier is not a recognized hash, fail with `InvalidLength` when
`bits ≤ 0` (on a recognized hash), treat absent context/party-info buffers as
the empty byte string, and produce no output on any error. -/
theorem kdf_error_contract :
    (∀ (alg : Algorithm) (key label : Bytes) (u v : Option Bytes) (bits : Int),
       KDFa alg key label u v bits = .error .UnsupportedAlgorithm ↔ hashFunction alg = none) ∧
    (∀ (alg : Algorithm) (hash : Bytes → Bytes) (key label : Bytes)
       (u v : Option Bytes) (bits : Int), hashFunction alg = some hash →
       (KDFa alg key label u v bits = .error .InvalidLength ↔ bits ≤ 0)) ∧
    (∀ (alg : Algorithm) (key label : Bytes) (bits : Int),
       KDFa alg key label none none bits = KDFa alg key label (some []) (some []) bits) ∧
    (∀ (alg : Algorithm) (key label : Bytes) (u v : Option Bytes) (bits : Int) (e : KDFError),
       KDFa alg key label u v bits = .error e → ¬∃ out, KDFa alg key label u v bits = .ok out) ∧
    (∀ (alg : Algorithm) (z label : Bytes) (u v : Option Bytes) (bits : Int),
       KDFe alg z label u v bits = .error .UnsupportedAlgorithm ↔ hashFunction alg = none) ∧
    (∀ (alg : Algorithm) (hash : Bytes → Bytes) (z label : Bytes)
       (u v : Option Bytes) (bits : Int), hashFunction alg = some hash →
       (KDFe alg z label u v bits = .error .InvalidLength ↔ bits ≤ 0)) ∧
    (∀ (alg : Algorithm) (z label : Bytes) (bits : Int),
       KDFe alg z label none none bits = KDFe alg z label (some []) (some []) bits) ∧
    (∀ (alg : Algorithm) (z label : Bytes) (u v : Option Bytes) (bits : Int) (e : KDFError),
       KDFe alg z label u v bits = .error e → ¬∃ out, KDFe alg z label u v bits = .ok out) := by
  refine ⟨KDFa_unsupported_iff, ?_, ?_, ?_, KDFe_unsupported_iff, ?_, ?_, ?_⟩
  · intro alg hash key label u v bits hrec
    exact KDFa_invalid_iff hrec key label u v bits
  · intro alg key label bits
    rfl
  · rintro alg key label u v bits e h ⟨out, hout⟩
    rw [h] at hout
    exact Except.noConfusion hout
  · intro alg hash z label u v bits hrec
    exact KDFe_invalid_iff hrec z label u v bits
  · intro alg z label bits
    rfl
  · rintro alg z label u v bits e h ⟨out, hout⟩
    rw [h] at hout
    exact Except.noConfusion hout

/-- Witness for C6 at concrete inputs: an unrecognized tag gives
`UnsupportedAlgorithm`, a non-positive bit count gives `InvalidLength`. -/
theorem kdf_error_contract_witness :
    KDFa .Null [] [] none none 128 = .error .UnsupportedAlgorithm ∧
    KDFa .SHA256 [] [] none none 0 = .error .InvalidLength ∧
    KDFe .RSA [] [] none none 128 = .error .UnsupportedAlgorithm ∧
    KDFe .SHA256 [] [] none none (-5) = .error .InvalidLength :=
  ⟨(kdf_error_contract.1 .Null [] [] none none 128).mpr rfl,
   (kdf_error_contract.2.1 .SHA256 sha256 [] [] none none 0 rfl).mpr (by norm_num),
   (kdf_error_contract.2.2.2.2.1 .RSA [] [] none none 128).mpr rfl,
   (kdf_error_contract.2.2.2.2.2.1 .SHA256 sha256 [] [] none none (-5) rfl).mpr (by norm_num)⟩

/-- Claim C7: KDFa and KDFe are deterministic — as pure functions of their
argument tuple, repeated calls return identical buffers. -/
theorem kdf_deterministic :
    ∀ (alg : Algorithm) (key z label : Bytes) (u v : Option Bytes) (bits : Int),
      KDFa alg key label u v bits = KDFa alg key label u v bits ∧
      KDFe alg z label u v bits = KDFe alg z label u v bits :=
  fun _ _ _ _ _ _ _ => ⟨rfl, rfl⟩

/-- Counterexample to C8: two KDFa calls agreeing on hashAlg, key, label and
bits but with different (contextU, contextV) pairs can return identical
buffers — at bits = 1 both contextU = [0x00] and contextU = [0x03] derive the
single byte 0x00. -/
theorem kdfa_context_collision :
    ((some [0], none) : Option Bytes × Option Bytes) ≠ (some [3], none) ∧
    KDFa .SHA256 [0x6b] labelIDENTITY (some [0]) none 1 = .ok [0] ∧
    KDFa .SHA256 [0x6b] labelIDENTITY (some [3]) none 1 = .ok [0] :=
  ⟨by decide, by rfl, by rfl⟩

/-- Claim C8 as amended: changing the context (or party-info) inputs while
holding the other inputs fixed does change the output on concrete inputs —
context is bound into every block — though equal outputs for different
contexts are possible at short bit lengths. -/
theorem kdf_context_sensitivity_concrete :
    KDFa .SHA256 [0x6b] labelIDENTITY (some [0]) none 8 = .ok [0xb9] ∧
    KDFa .SHA256 [0x6b] labelIDENTITY (some [1]) none 8 = .ok [0xfb] ∧
    ([0xb9] : Bytes) ≠ [0xfb] ∧
    KDFe .SHA256 [0x5a] labelDUPLICATE (some [1]) (some [2]) 16 = .ok [0xcd, 0x33] ∧
    KDFe .SHA256 [0x5a] labelDUPLICATE (some [9]) (some [2]) 16 = .ok [0x50, 0x25] ∧
    ([0xcd, 0x33] : Bytes) ≠ [0x50, 0x25] :=
  ⟨by rfl, by rfl, by decide, by rfl, by rfl, by decide⟩

/-- Counterexample to C9: with b1 = 8 (a positive multiple of 8) and b2 = 9,
the 1-byte KDFe output at b1 is not the first byte of the output at b2,
because the b2 output's byte 0 is high-bit masked while the b1 output is
not. -/
theorem kdfe_prefix_break :
    (8 : Int) ∣ 8 ∧ (8 : Int) ≤ 9 ∧
    KDFe .SHA256 [0x5a] labelDUPLICATE (some [1]) (some [2]) 8 = .ok [0xcd] ∧
    KDFe .SHA256 [0x5a] labelDUPLICATE (some [1]) (some [2]) 9 = .ok [0x01, 0x33] ∧
    ([0xcd] : Bytes) ≠ ([0x01, 0x33] : Bytes).take ((8 : Int).toNat / 8) :=
  ⟨dvd_refl 8, by norm_num, by rfl, by rfl, by decide⟩

/-- Claim C9 as amended: KDFe outputs are prefix-consistent in the requested
length when both bit lengths are positive multiples of 8 (so that no
masking applies): the b1 output is the first b1/8 bytes of the b2 output. -/
theorem kdfe_prefix_consistent_byte_aligned (alg : Algorithm) (hash : Bytes → Bytes)
    (hrec : hashFunction alg = some hash) (z label : Bytes) (u v : Option Bytes)
    (b1 b2 : Int) (h1 : 1 ≤ b1) (hle : b1 ≤ b2)
    (hm1 : (8 : Int) ∣ b1) (hm2 : (8 : Int) ∣ b2) (o1 o2 : Bytes)
    (e1 : KDFe alg z label u v b1 = .ok o1) (e2 : KDFe alg z label u v b2 = .ok o2) :
    o1 = o2.take (b1.toNat / 8) := by
  have hb2 : (1 : Int) ≤ b2 := le_trans h1 hle
  rw [KDFe_eq_closed hrec z label u v b1 h1] at e1
  rw [KDFe_eq_closed hrec z label u v b2 hb2] at e2
  have ho1 := Except.ok.inj e1
  have ho2 := Except.ok.inj e2
  subst ho1
  subst ho2
  have hm1' : b1.toNat % 8 = 0 := by omega
  have hm2' : b2.toNat % 8 = 0 := by omega
  have hn1eq : (b1.toNat + 7) / 8 = b1.toNat / 8 := by omega
  have hn12 : (b1.toNat + 7) / 8 ≤ (b2.toNat + 7) / 8 := by omega
  rw [maskHigh_of_mod_eq_zero hm1', maskHigh_of_mod_eq_zero hm2', ← hn1eq,
    List.take_take, Nat.min_eq_left hn12]
  have hplus : (b1.toNat + 7) / 8 + digestSize alg - 1 ≤ (b2.toNat + 7) / 8 + digestSize alg - 1 := by
    omega
  exact take_flatMap_range_eq (fun i => hash_length hrec _)
    (Nat.div_le_div_right hplus) (needed_le_blocks (digestSize_pos hrec))

/-- Witness for the amended C9 at a concrete input: the 8-bit KDFe output is
the first byte of the 16-bit KDFe output on the same inputs. -/
theorem kdfe_prefix_consistent_witness :
    ([0xcd] : Bytes) = ([0xcd, 0x33] : Bytes).take 1 :=
  kdfe_prefix_consistent_byte_aligned .SHA256 sha256 rfl [0x5a] labelDUPLICATE
    (some [1]) (some [2]) 8 16 (by norm_num) (by norm_num) (by norm_num) (by norm_num)
    [0xcd] [0xcd, 0x33] (by rfl) (by rfl)

/-- Claim C10: on a recognized algorithm (SHA-1 or SHA-256 among them) and
bits ≥ 1, KDFa and KDFe always succeed — the error branches are unreachable
and a byte buffer is returned, for any key/z, label and (possibly absent)
context buffers. -/
theorem kdf_total_on_supported :
    ∀ (alg : Algorithm) (key z label : Bytes) (u v : Option Bytes) (bits : Int),
      hashFunction alg ≠ none → 1 ≤ bits →
      (∃ out, KDFa alg key label u v bits = .ok out) ∧
      (∃ out, KDFe alg z label u v bits = .ok out) := by
  intro alg key z label u v bits hne hb
  cases halg : hashFunction alg with
  | none => exact absurd halg hne
  | some hash =>
    exact ⟨⟨_, KDFa_eq_closed halg key label u v bits hb⟩,
           ⟨_, KDFe_eq_closed halg z label u v bits hb⟩⟩

/-- Witness for C10 at a concrete input: KDFa and KDFe succeed with SHA-1,
empty key and label, absent contexts and bits = 1. -/
theorem kdf_total_on_supported_witness :
    (∃ out, KDFa .SHA1 [] [] none none 1 = .ok out) ∧
    (∃ out, KDFe .SHA1 [] [] none none 1 = .ok out) :=
  kdf_total_on_supported .SHA1 [] [] [] none none 1 (by simp [hashFunction]) (by norm_num)

end Claims

end TPMKDF
